import Mathlib

/-!
Verification of the batch import-and-publish pipeline of
`geoserver_postgresql_manager-v2.1.py` against its specification.

The Python source is shallowly embedded below: pure functions become Lean
functions over `List Char` / `String` / `Nat`, the batch loop becomes a
recursive function over an explicit list of per-item outcomes, and HTTP /
database effects are abstracted as outcome parameters.  Python's `str.lower`
is modelled on ASCII (`A`-`Z` ↦ `a`-`z`, every other character unchanged);
none of the verified properties depends on non-ASCII case mapping.
-/

namespace GpmVerify

/-! ### Name Normalizer (`ImprovedDataScanner.normalize_name`)

Python source:
```
normalized = re.sub(r'[^a-z0-9_]', '_', name.lower())
normalized = re.sub(r'_+', '_', normalized)
normalized = normalized.strip('_')
if not normalized:
    normalized = 'unnamed'
return normalized
```
-/

/-- ASCII model of Python `str.lower` on one character: code points 65–90
(`A`–`Z`) are shifted by 32 to 97–122 (`a`–`z`); all others unchanged. -/
def lowerChar (c : Char) : Char :=
  if 65 ≤ c.toNat ∧ c.toNat ≤ 90 then Char.ofNat (c.toNat + 32) else c

/-- The character class `[a-z0-9_]` of the normalizer's regex:
code points 97–122 (`a`–`z`), 48–57 (`0`–`9`), 95 (`_`). -/
def isValidChar (c : Char) : Bool :=
  (97 ≤ c.toNat && c.toNat ≤ 122) || (48 ≤ c.toNat && c.toNat ≤ 57) ||
    (c.toNat == 95)

/-- `re.sub(r'[^a-z0-9_]', '_', s)`: replace each character outside the
class with an underscore. -/
def subInvalid (l : List Char) : List Char :=
  l.map fun c => if isValidChar c then c else '_'

/-- `re.sub(r'_+', '_', s)`: collapse every run of underscores to one
(keeping the last underscore of each run). -/
def collapse : List Char → List Char
  | [] => []
  | [c] => [c]
  | c :: d :: rest =>
    if c = '_' ∧ d = '_' then collapse (d :: rest)
    else c :: collapse (d :: rest)

/-- Left half of Python `strip('_')`: drop leading underscores. -/
def stripLeadU (l : List Char) : List Char :=
  l.dropWhile fun c => c == '_'

/-- Right half of Python `strip('_')`: drop trailing underscores. -/
def stripTrailU : List Char → List Char
  | [] => []
  | c :: rest =>
    let r := stripTrailU rest
    if c = '_' ∧ r = [] then [] else c :: r

/-- Python `strip('_')`. -/
def stripU (l : List Char) : List Char :=
  stripTrailU (stripLeadU l)

/-- The fallback literal `'unnamed'`. -/
def unnamedChars : List Char := ['u', 'n', 'n', 'a', 'm', 'e', 'd']

/-- `ImprovedDataScanner.normalize_name`, character-list level: the Python
`normalized` variable after the three regex/strip steps is
`stripU (collapse (subInvalid (l.map lowerChar)))`; the final `if not
normalized` check substitutes `'unnamed'` for an empty result. -/
def normalize_name (l : List Char) : List Char :=
  if stripU (collapse (subInvalid (l.map lowerChar))) = [] then unnamedChars
  else stripU (collapse (subInvalid (l.map lowerChar)))

/-- `ImprovedDataScanner.normalize_name` on Lean strings. -/
def normalizeName (s : String) : String :=
  String.mk (normalize_name s.data)

/-- A character of the input counts as "valid" when its lower-cased form is
in `[a-z0-9_]` — i.e. it survives the substitution step as itself. -/
def hasValidChar (l : List Char) : Bool :=
  l.any fun c => isValidChar (lowerChar c)

/-- Output shape predicate `^[a-z0-9_]+$`: non-empty, all characters in the
identifier class. -/
def matchesIdentPattern (l : List Char) : Bool :=
  !(l.isEmpty) && l.all isValidChar

/-! #### Structural predicates used in the normalizer proofs -/

/-- No two adjacent underscores. -/
def noDoubleU : List Char → Bool
  | c :: d :: rest => !(c == '_' && d == '_') && noDoubleU (d :: rest)
  | _ => true

/-- First character (if any) is not an underscore. -/
def headNotU : List Char → Bool
  | [] => true
  | c :: _ => !(c == '_')

/-- Last character (if any) is not an underscore. -/
def lastNotU : List Char → Bool
  | [] => true
  | [c] => !(c == '_')
  | _ :: d :: rest => lastNotU (d :: rest)

/-! #### Helper lemmas -/

theorem lowerChar_of_valid {c : Char} (h : isValidChar c = true) :
    lowerChar c = c := by
  unfold isValidChar at h
  simp only [Bool.or_eq_true, Bool.and_eq_true, decide_eq_true_eq,
    beq_iff_eq] at h
  unfold lowerChar
  rw [if_neg]
  omega

theorem mem_subInvalid_valid {l : List Char} {c : Char}
    (h : c ∈ subInvalid l) : isValidChar c = true := by
  unfold subInvalid at h
  rw [List.mem_map] at h
  obtain ⟨a, -, rfl⟩ := h
  by_cases ha : isValidChar a = true
  · simp [ha]
  · simp only [Bool.not_eq_true] at ha
    simp [ha]
    decide

theorem mem_collapse {l : List Char} {c : Char} (h : c ∈ collapse l) :
    c ∈ l := by
  induction l using collapse.induct with
  | case1 => simp [collapse] at h
  | case2 d => simpa [collapse] using h
  | case3 a d rest hud ih =>
    rw [collapse, if_pos hud] at h
    exact List.mem_cons_of_mem a (ih h)
  | case4 a d rest hud ih =>
    rw [collapse, if_neg hud] at h
    rcases List.mem_cons.mp h with rfl | h
    · exact List.mem_cons_self _ _
    · exact List.mem_cons_of_mem a (ih h)

theorem collapse_cons (rest : List Char) :
    ∀ d, ∃ t, collapse (d :: rest) = d :: t := by
  induction rest with
  | nil => exact fun d => ⟨[], rfl⟩
  | cons e r ih =>
    intro d
    by_cases h : d = '_' ∧ e = '_'
    · rw [collapse, if_pos h]
      obtain ⟨t, ht⟩ := ih e
      exact ⟨t, by rw [ht, h.1, h.2]⟩
    · rw [collapse, if_neg h]
      exact ⟨collapse (e :: r), rfl⟩

theorem collapse_noDoubleU (l : List Char) :
    noDoubleU (collapse l) = true := by
  induction l using collapse.induct with
  | case1 => rfl
  | case2 d => rfl
  | case3 a d rest hud ih => rw [collapse, if_pos hud]; exact ih
  | case4 a d rest hud ih =>
    rw [collapse, if_neg hud]
    obtain ⟨t, ht⟩ := collapse_cons rest d
    rw [ht] at ih ⊢
    rw [noDoubleU, ih, Bool.and_true, Bool.not_eq_true', Bool.and_eq_false_iff]
    rcases Decidable.not_and_iff_or_not.mp hud with h | h
    · exact Or.inl (beq_eq_false_iff_ne.mpr h)
    · exact Or.inr (beq_eq_false_iff_ne.mpr h)

theorem noDoubleU_tail {c : Char} {l : List Char}
    (h : noDoubleU (c :: l) = true) : noDoubleU l = true := by
  cases l with
  | nil => rfl
  | cons d rest => exact (Bool.and_eq_true_iff.mp h).2

theorem noDoubleU_dropWhile {l : List Char} (p : Char → Bool)
    (h : noDoubleU l = true) : noDoubleU (l.dropWhile p) = true := by
  induction l with
  | nil => exact h
  | cons c rest ih =>
    rw [List.dropWhile_cons]
    split
    · exact ih (noDoubleU_tail h)
    · exact h

theorem noDoubleU_append_left :
    ∀ {l t : List Char}, noDoubleU (l ++ t) = true → noDoubleU l = true := by
  intro l
  induction l with
  | nil => intro t _; rfl
  | cons c rest ih =>
    intro t h
    cases rest with
    | nil => rfl
    | cons d r2 =>
      rw [List.cons_append, List.cons_append] at h
      rw [noDoubleU] at h ⊢
      rw [Bool.and_eq_true_iff] at h
      refine Bool.and_eq_true_iff.mpr ⟨h.1, ?_⟩
      exact ih (by rw [List.cons_append]; exact h.2)

theorem stripTrailU_append (l : List Char) :
    ∃ t, l = stripTrailU l ++ t := by
  induction l with
  | nil => exact ⟨[], rfl⟩
  | cons c rest ih =>
    obtain ⟨t, ht⟩ := ih
    rw [stripTrailU]
    by_cases h : c = '_' ∧ stripTrailU rest = []
    · rw [if_pos h]
      exact ⟨c :: rest, rfl⟩
    · rw [if_neg h]
      exact ⟨t, by rw [List.cons_append, ← ht]⟩

theorem noDoubleU_stripTrailU {l : List Char} (h : noDoubleU l = true) :
    noDoubleU (stripTrailU l) = true := by
  obtain ⟨t, ht⟩ := stripTrailU_append l
  rw [ht] at h
  exact noDoubleU_append_left h

theorem mem_stripTrailU {l : List Char} {c : Char}
    (h : c ∈ stripTrailU l) : c ∈ l := by
  obtain ⟨t, ht⟩ := stripTrailU_append l
  rw [ht]
  exact List.mem_append_left t h

theorem mem_stripLeadU {l : List Char} {c : Char}
    (h : c ∈ stripLeadU l) : c ∈ l := by
  unfold stripLeadU at h
  induction l with
  | nil => exact h
  | cons d rest ih =>
    rw [List.dropWhile_cons] at h
    by_cases hd : (d == '_') = true
    · rw [if_pos hd] at h
      exact List.mem_cons_of_mem d (ih h)
    · rw [if_neg hd] at h
      exact h

theorem headNotU_stripLeadU (l : List Char) :
    headNotU (stripLeadU l) = true := by
  unfold stripLeadU
  induction l with
  | nil => rfl
  | cons c rest ih =>
    rw [List.dropWhile_cons]
    by_cases hc : (c == '_') = true
    · rw [if_pos hc]; exact ih
    · rw [if_neg hc]
      rw [headNotU, Bool.not_eq_true']
      exact Bool.not_eq_true _ ▸ (Bool.eq_false_iff.mpr hc)

theorem headNotU_stripTrailU {l : List Char} (h : headNotU l = true) :
    headNotU (stripTrailU l) = true := by
  cases l with
  | nil => rfl
  | cons c rest =>
    rw [stripTrailU]
    by_cases hcr : c = '_' ∧ stripTrailU rest = []
    · rw [if_pos hcr]; rfl
    · rw [if_neg hcr]; exact h

theorem lastNotU_stripTrailU (l : List Char) :
    lastNotU (stripTrailU l) = true := by
  induction l with
  | nil => rfl
  | cons c rest ih =>
    rw [stripTrailU]
    by_cases hcr : c = '_' ∧ stripTrailU rest = []
    · rw [if_pos hcr]; rfl
    · rw [if_neg hcr]
      cases hr : stripTrailU rest with
      | nil =>
        have hc : ¬ c = '_' := fun hc => hcr ⟨hc, hr⟩
        rw [lastNotU, Bool.not_eq_true']
        exact beq_eq_false_iff_ne.mpr hc
      | cons d r2 =>
        show lastNotU (d :: r2) = true
        rw [← hr]
        exact ih

theorem map_lowerChar_of_valid {l : List Char}
    (h : ∀ c ∈ l, isValidChar c = true) : l.map lowerChar = l := by
  induction l with
  | nil => rfl
  | cons c rest ih =>
    rw [List.map_cons, lowerChar_of_valid (h c (List.mem_cons_self c rest)),
      ih fun d hd => h d (List.mem_cons_of_mem c hd)]

theorem subInvalid_of_valid {l : List Char}
    (h : ∀ c ∈ l, isValidChar c = true) : subInvalid l = l := by
  unfold subInvalid
  induction l with
  | nil => rfl
  | cons c rest ih =>
    rw [List.map_cons, if_pos (h c (List.mem_cons_self c rest)),
      ih fun d hd => h d (List.mem_cons_of_mem c hd)]

theorem collapse_of_noDoubleU {l : List Char} (h : noDoubleU l = true) :
    collapse l = l := by
  induction l using collapse.induct with
  | case1 => rfl
  | case2 d => rfl
  | case3 a d rest hud ih =>
    exfalso
    rw [noDoubleU, Bool.and_eq_true_iff] at h
    have := h.1
    rw [Bool.not_eq_true', Bool.and_eq_false_iff] at this
    rcases this with h1 | h1 <;> rw [beq_eq_false_iff_ne] at h1
    · exact h1 hud.1
    · exact h1 hud.2
  | case4 a d rest hud ih =>
    rw [collapse, if_neg hud, ih (noDoubleU_tail h)]

theorem stripLeadU_of_headNotU {l : List Char} (h : headNotU l = true) :
    stripLeadU l = l := by
  cases l with
  | nil => rfl
  | cons c rest =>
    unfold stripLeadU
    rw [List.dropWhile_cons, if_neg]
    rw [headNotU, Bool.not_eq_true'] at h
    simp [h]

theorem stripTrailU_of_lastNotU {l : List Char} (h : lastNotU l = true) :
    stripTrailU l = l := by
  induction l with
  | nil => rfl
  | cons c rest ih =>
    cases rest with
    | nil =>
      rw [lastNotU, Bool.not_eq_true', beq_eq_false_iff_ne] at h
      rw [stripTrailU]
      simp [h, stripTrailU]
    | cons d r2 =>
      have h2 : lastNotU (d :: r2) = true := h
      rw [stripTrailU]
      rw [ih h2]
      simp

/-- Every character of `normalize_name l` lies in `[a-z0-9_]`. -/
theorem normalize_name_all_valid (l : List Char) :
    ∀ c ∈ normalize_name l, isValidChar c = true := by
  intro c hc
  unfold normalize_name at hc
  by_cases hs : stripU (collapse (subInvalid (l.map lowerChar))) = []
  · rw [if_pos hs] at hc
    fin_cases hc <;> decide
  · rw [if_neg hs] at hc
    unfold stripU at hc
    exact mem_subInvalid_valid (mem_collapse (mem_stripLeadU (mem_stripTrailU hc)))

/-- `normalize_name` never returns the empty list. -/
theorem normalize_name_ne_nil (l : List Char) : normalize_name l ≠ [] := by
  unfold normalize_name
  split
  · decide
  · assumption

theorem normalize_name_headNotU (l : List Char) :
    headNotU (normalize_name l) = true := by
  unfold normalize_name
  split
  · decide
  · exact headNotU_stripTrailU (headNotU_stripLeadU _)

theorem normalize_name_lastNotU (l : List Char) :
    lastNotU (normalize_name l) = true := by
  unfold normalize_name
  split
  · decide
  · exact lastNotU_stripTrailU _

theorem normalize_name_noDoubleU (l : List Char) :
    noDoubleU (normalize_name l) = true := by
  unfold normalize_name
  split
  · decide
  · exact noDoubleU_stripTrailU (noDoubleU_dropWhile _ (collapse_noDoubleU _))

/-- Idempotence of the normalizer at the character-list level. -/
theorem normalize_name_idem (l : List Char) :
    normalize_name (normalize_name l) = normalize_name l := by
  have hvalid := normalize_name_all_valid l
  have hne := normalize_name_ne_nil l
  conv_lhs => rw [normalize_name]
  rw [map_lowerChar_of_valid hvalid, subInvalid_of_valid hvalid,
    collapse_of_noDoubleU (normalize_name_noDoubleU l)]
  unfold stripU
  rw [stripLeadU_of_headNotU (normalize_name_headNotU l),
    stripTrailU_of_lastNotU (normalize_name_lastNotU l)]
  simp [hne]

/-- `normalize_name` always produces a match of `^[a-z0-9_]+$`. -/
theorem normalize_name_matches (l : List Char) :
    matchesIdentPattern (normalize_name l) = true := by
  unfold matchesIdentPattern
  rw [Bool.and_eq_true_iff]
  constructor
  · rw [Bool.not_eq_true', List.isEmpty_eq_false_iff_exists_mem]
    cases hn : normalize_name l with
    | nil => exact absurd hn (normalize_name_ne_nil l)
    | cons c rest => exact ⟨c, List.mem_cons_self c rest⟩
  · rw [List.all_eq_true]
    exact normalize_name_all_valid l

/-- When no character of the input survives the substitution step, the
result is the literal `unnamed`. -/
theorem normalize_name_of_no_valid {l : List Char}
    (h : hasValidChar l = false) : normalize_name l = unnamedChars := by
  have hall : ∀ c ∈ collapse (subInvalid (l.map lowerChar)), c = '_' := by
    intro c hc
    have hc2 := mem_collapse hc
    unfold subInvalid at hc2
    rw [List.mem_map] at hc2
    obtain ⟨a, ha, rfl⟩ := hc2
    rw [List.mem_map] at ha
    obtain ⟨b, hb, rfl⟩ := ha
    unfold hasValidChar at h
    rw [List.any_eq_false] at h
    exact if_neg (h b hb)
  have hlead : stripLeadU (collapse (subInvalid (l.map lowerChar))) = [] := by
    unfold stripLeadU
    rw [List.dropWhile_eq_nil_iff]
    intro c hc
    rw [beq_iff_eq]
    exact hall c hc
  unfold normalize_name stripU
  rw [hlead]
  rfl

/-! ### Column sanitization in `ImprovedPostgreSQLManager.import_vector_file`

Python source (per non-geometry column):
```
clean_col = re.sub(r'[^a-zA-Z0-9_]', '_', col.lower())
column_mapping[col] = clean_col
```
Note the character class here is `[a-zA-Z0-9_]` (uppercase letters kept) and
there is no collapsing, stripping, or empty-result fallback.
-/

/-- The character class `[a-zA-Z0-9_]` of the import sanitization regex. -/
def isColKeep (c : Char) : Bool :=
  (65 ≤ c.toNat && c.toNat ≤ 90) || (97 ≤ c.toNat && c.toNat ≤ 122) ||
    (48 ≤ c.toNat && c.toNat ≤ 57) || (c.toNat == 95)

/-- Destination column name computed by `import_vector_file` for one source
column: `re.sub(r'[^a-zA-Z0-9_]', '_', col.lower())`. -/
def clean_col (l : List Char) : List Char :=
  (l.map lowerChar).map fun c => if isColKeep c then c else '_'

/-- The `column_mapping` dict built by `import_vector_file`: every column
other than the geometry column `geom` is mapped to its cleaned name. -/
def column_mapping (cols : List (List Char)) :
    List (List Char × List Char) :=
  cols.filterMap fun col =>
    if col = String.toList "geom" then none else some (col, clean_col col)

theorem lowerChar_not_upper (a : Char) :
    ¬(65 ≤ (lowerChar a).toNat ∧ (lowerChar a).toNat ≤ 90) := by
  unfold lowerChar
  by_cases h : 65 ≤ a.toNat ∧ a.toNat ≤ 90
  · rw [if_pos h]
    have : (Char.ofNat (a.toNat + 32)).toNat = a.toNat + 32 := by
      unfold Char.ofNat
      rw [dif_pos]
      · rfl
      · left; omega
    omega
  · rw [if_neg h]
    exact h

/-- On lower-cased text the two regex character classes agree, so the import
sanitization is exactly the substitution stage of the Name Normalizer. -/
theorem clean_col_eq_subInvalid (l : List Char) :
    clean_col l = subInvalid (l.map lowerChar) := by
  unfold clean_col subInvalid
  rw [List.map_map, List.map_map]
  apply List.map_congr_left
  intro a _
  simp only [Function.comp_apply]
  have hne := lowerChar_not_upper a
  have h65 : (65 ≤ (lowerChar a).toNat && (lowerChar a).toNat ≤ 90) = false := by
    rw [Bool.and_eq_false_iff]
    rcases Decidable.not_and_iff_or_not.mp hne with h | h
    · exact Or.inl (by simpa using h)
    · exact Or.inr (by simpa using h)
  have : isColKeep (lowerChar a) = isValidChar (lowerChar a) := by
    unfold isColKeep isValidChar
    rw [h65]
    simp only [Bool.false_or]
  rw [this]

/-! ### Publishing Gateway (`ImprovedGeoServerPublisher`)

HTTP effects are abstracted as an outcome: either a response with a status
code, or a raised exception (caught by the surrounding `except`, which
returns `(False, str(e))`).
-/

/-- Outcome of one HTTP round-trip. -/
inductive HttpOutcome where
  | status (code : Nat)
  | exn (msg : String)

/-- `ImprovedGeoServerPublisher.create_workspace` result classification:
`200/201` created, `409` treated as "already exists" success, anything else
(or an exception) a failure. -/
def create_workspace_result : HttpOutcome → Bool × String
  | .status code =>
    if code ∈ [200, 201] then (true, "创建成功")
    else if code = 409 then (true, "工作空间已存在")
    else (false, "创建失败: " ++ toString code)
  | .exn msg => (false, msg)

/-- `ImprovedGeoServerPublisher.publish_layer_from_table` result
classification: only `200/201` succeed; every other status (including
`409`) and every exception fail. -/
def publish_layer_result : HttpOutcome → Bool × String
  | .status code =>
    if code ∈ [200, 201] then (true, "发布成功")
    else (false, "发布失败: " ++ toString code)
  | .exn msg => (false, msg)

/-! ### Database Gateway rename (`ImprovedPostgreSQLManager.rename_table`)
and the GUI rename flow (`ImprovedMainWindow.rename_table`) -/

/-- The identifier rule `^[a-zA-Z][a-zA-Z0-9_]*$` checked by the GUI
(`re.match(r'^[a-zA-Z][a-zA-Z0-9_]*$', new_name)`). -/
def validSqlIdent (s : String) : Bool :=
  match s.data with
  | [] => false
  | c :: rest =>
    ((65 ≤ c.toNat && c.toNat ≤ 90) || (97 ≤ c.toNat && c.toNat ≤ 122)) &&
      rest.all isColKeep

/-- The single SQL statement built and executed by
`ImprovedPostgreSQLManager.rename_table`:
`ALTER TABLE "<schema>"."<old>" RENAME TO "<new>"`. -/
def renameTableSql (schema oldName newName : String) : String :=
  "ALTER TABLE \"" ++ schema ++ "\".\"" ++ oldName ++ "\" RENAME TO \"" ++
    newName ++ "\""

/-- SQL statements submitted by `ImprovedPostgreSQLManager.rename_table`.
The method performs no name validation: for every pair of names it directly
executes the quoted `ALTER TABLE` statement. -/
def pg_rename_table_statements (schema oldName newName : String) :
    List String :=
  [renameTableSql schema oldName newName]

/-- Control flow of the GUI-level `ImprovedMainWindow.rename_table` after
the dialog returns a candidate name. -/
inductive RenameFlow where
  | noop
  | rejected
  | executed (statements : List String)
deriving DecidableEq

/-- `ImprovedMainWindow.rename_table` decision sequence: an empty or
unchanged name returns silently; a name failing the identifier regex is
rejected with a warning before the gateway is invoked; otherwise the
gateway executes the rename SQL. -/
def main_window_rename (current newName schema : String) : RenameFlow :=
  if newName = "" ∨ newName = current then .noop
  else if validSqlIdent newName = false then .rejected
  else .executed (pg_rename_table_statements schema current newName)

/-! ### Batch Orchestrator (`ImprovedBatchProcessor`) -/

/-- One scanned data item as consumed by the batch loop: the dict built by
`ImprovedDataScanner.scan_folder` (fields not read by the loop or the two
stage helpers are omitted).  The `srs` key may be absent
(`item.get('srs', 'EPSG:4326')`). -/
structure DataItem where
  new_name : String
  srs? : Option String
deriving DecidableEq

/-- `item.get('srs', 'EPSG:4326')`. -/
def DataItem.srsText (it : DataItem) : String :=
  it.srs?.getD "EPSG:4326"

/-- Python `str.startswith` on character lists. -/
def startsWithChars : List Char → List Char → Bool
  | _, [] => true
  | [], _ :: _ => false
  | c :: rest, p :: ps => c == p && startsWithChars rest ps

/-- Python `str.startswith`. -/
def strStartsWith (s pre : String) : Bool :=
  startsWithChars s.data pre.data

/-- Target CRS chosen by `ImprovedBatchProcessor._import_single_item`:
`srid_text if srid_text.startswith('EPSG:') else 'EPSG:4326'`. -/
def importTargetCrs (it : DataItem) : String :=
  if strStartsWith it.srsText "EPSG:" then it.srsText else "EPSG:4326"

/-- SRS passed by `ImprovedBatchProcessor._publish_single_item` to
`publish_layer_from_table`: the item's `srs` text unchanged. -/
def publishSrs (it : DataItem) : String :=
  it.srsText

/-- Externally determined outcome of processing one item inside the loop of
`process_data_items`.  `_import_single_item` and `_publish_single_item`
catch their own exceptions and return booleans, so from the loop's view
each stage yields a `Bool`; `exn` models an unexpected exception raised in
the loop body itself (e.g. a malformed item dict failing the
`item['new_name']` lookup), which the per-item `except` catches. -/
inductive ItemOutcome where
  | exn
  | normal (importOk publishOk : Bool)
deriving DecidableEq

/-- One item paired with its environment-determined outcome. -/
structure ItemRun where
  item : DataItem
  outcome : ItemOutcome
deriving DecidableEq

/-- Did the run record this item as a success (both stages succeeded)? -/
def fullSuccess : ItemOutcome → Bool
  | .normal true true => true
  | _ => false

/-- Is `_publish_single_item` invoked for this item?  In the source the
publish call sits under `if import_success:`, so it happens exactly when
the import stage returned `True`. -/
def publishAttempted : ItemOutcome → Bool
  | .normal true _ => true
  | _ => false

/-- State accumulated by the `for` loop of `process_data_items`:
`success_count` and `error_count` as in the source, plus instrumentation of
two observable call sites — `recorded_success` holds one flag per item
(`true` at the `处理成功` log line, `false` at the failure log lines and in
the `except` handler) and `publish_calls` one flag per item telling whether
`_publish_single_item` was invoked for it. -/
structure LoopState where
  success_count : Nat
  error_count : Nat
  recorded_success : List Bool
  publish_calls : List Bool
deriving DecidableEq

/-- The `for item in data_items` loop of `process_data_items`: per item, an
exception in the body is caught and counted as a failure; otherwise the
importing stage runs, on `True` the publish stage runs, and the tallies
are updated exactly as in the source. -/
def processItems : List ItemRun → LoopState
  | [] => ⟨0, 0, [], []⟩
  | r :: rest =>
    let s := processItems rest
    match r.outcome with
    | .exn =>
      ⟨s.success_count, s.error_count + 1,
        false :: s.recorded_success, false :: s.publish_calls⟩
    | .normal importOk publishOk =>
      if importOk then
        if publishOk then
          ⟨s.success_count + 1, s.error_count,
            true :: s.recorded_success, true :: s.publish_calls⟩
        else
          ⟨s.success_count, s.error_count + 1,
            false :: s.recorded_success, true :: s.publish_calls⟩
      else
        ⟨s.success_count, s.error_count + 1,
          false :: s.recorded_success, false :: s.publish_calls⟩

/-- `ImprovedBatchProcessor.process_data_items`: the four setup steps
(database connect, GeoServer connectivity test, workspace creation, data
store creation) abort the run on failure; then the item loop runs and the
return value is `(success_count > 0,
"处理完成: 成功 <success_count>/<total_items> 个")`. -/
def process_data_items (dbConnectOk gsConnectOk wsCreateOk dsCreateOk : Bool)
    (items : List ItemRun) : Bool × String :=
  if dbConnectOk = false then (false, "数据库连接失败")
  else if gsConnectOk = false then (false, "GeoServer连接失败")
  else if wsCreateOk = false then (false, "工作空间创建失败")
  else if dsCreateOk = false then (false, "数据存储创建失败")
  else
    (decide (0 < (processItems items).success_count),
      "处理完成: 成功 " ++ toString (processItems items).success_count ++ "/" ++
        toString items.length ++ " 个")

/-! ### Folder scanning (`ImprovedDataScanner.scan_folder`) -/

/-- The `new_name` field of a scanned data item:
`self.normalize_name(Path(file).stem)`. -/
def scan_target_name (stem : List Char) : List Char :=
  normalize_name stem

/-! #### Loop accounting lemmas -/

theorem processItems_recorded (items : List ItemRun) :
    (processItems items).recorded_success
      = items.map fun r => fullSuccess r.outcome := by
  induction items with
  | nil => rfl
  | cons r rest ih =>
    rw [processItems, List.map_cons]
    cases hr : r.outcome with
    | exn => simpa [fullSuccess] using ih
    | normal importOk publishOk =>
      cases importOk <;> cases publishOk <;> simpa [fullSuccess] using ih

theorem processItems_publish_calls (items : List ItemRun) :
    (processItems items).publish_calls
      = items.map fun r => publishAttempted r.outcome := by
  induction items with
  | nil => rfl
  | cons r rest ih =>
    rw [processItems, List.map_cons]
    cases hr : r.outcome with
    | exn => simpa [publishAttempted] using ih
    | normal importOk publishOk =>
      cases importOk <;> cases publishOk <;> simpa [publishAttempted] using ih

theorem processItems_success_count (items : List ItemRun) :
    (processItems items).success_count
      = (items.filter fun r => fullSuccess r.outcome).length := by
  induction items with
  | nil => rfl
  | cons r rest ih =>
    rw [processItems, List.filter_cons]
    cases hr : r.outcome with
    | exn => simpa [fullSuccess] using ih
    | normal importOk publishOk =>
      cases importOk <;> cases publishOk <;> simpa [fullSuccess] using ih

theorem processItems_total (items : List ItemRun) :
    (processItems items).success_count + (processItems items).error_count
      = items.length := by
  induction items with
  | nil => rfl
  | cons r rest ih =>
    rw [processItems, List.length_cons]
    cases hr : r.outcome with
    | exn =>
      show (processItems rest).success_count
          + ((processItems rest).error_count + 1) = rest.length + 1
      omega
    | normal importOk publishOk =>
      cases importOk <;> cases publishOk <;> simp only [Bool.false_eq_true,
        if_false, if_true, reduceIte] <;> omega

/-! ### Claim theorems -/

/-- C1: in every run of the batch loop, an item is recorded as a success
exactly when both its import and publish stages succeed
(`recorded_success` lists per item the branch taken); when the import
stage fails (or an exception is caught) `_publish_single_item` is not
invoked for that item (`publish_calls`); and every item — including ones
whose processing raised an unexpected exception — contributes to exactly
one of the two tallies, so a per-item failure never aborts the run
(`success_count + error_count` always equals the number of items). -/
theorem c1_per_item_accounting (items : List ItemRun) :
    (processItems items).recorded_success
        = (items.map fun r => fullSuccess r.outcome)
    ∧ (processItems items).publish_calls
        = (items.map fun r => publishAttempted r.outcome)
    ∧ (processItems items).success_count + (processItems items).error_count
        = items.length :=
  ⟨processItems_recorded items, processItems_publish_calls items,
    processItems_total items⟩

/-- C2: once the four setup steps pass, `process_data_items` returns the
flag `success_count > 0` — in particular `false` for an empty item list —
together with the message `处理完成: 成功 <success>/<total> 个` in which the
embedded success count is exactly the number of items whose two stages both
succeeded and the total is the number of items. -/
theorem c2_run_level_result (items : List ItemRun) :
    process_data_items true true true true items
      = (decide (0 < (items.filter fun r => fullSuccess r.outcome).length),
          "处理完成: 成功 "
            ++ toString (items.filter fun r => fullSuccess r.outcome).length
            ++ "/" ++ toString items.length ++ " 个")
    ∧ (process_data_items true true true true []).1 = false := by
  constructor
  · unfold process_data_items
    rw [processItems_success_count]
    rfl
  · rfl

/-- C3 counterexample: two runs whose failed items differ — in the first
run item `alpha` fails its import and `beta` fully succeeds, in the second
`alpha` fully succeeds and `beta` fails its import — return the exact same
value to the caller, although their (item identifier, failure reason)
lists would be `[(alpha, …)]` and `[(beta, …)]` respectively.  The return
value of `process_data_items` — a pass/fail flag and a message — therefore
cannot contain the failed items' identifier/reason list, refuting the
claim that such a list is available to the caller. -/
theorem c3_counterexample :
    process_data_items true true true true
        [⟨⟨"alpha", none⟩, .normal false false⟩,
          ⟨⟨"beta", none⟩, .normal true true⟩]
      = process_data_items true true true true
        [⟨⟨"alpha", none⟩, .normal true true⟩,
          ⟨⟨"beta", none⟩, .normal false false⟩] := by
  rfl

/-- C3 (amended): the value returned to the caller consists only of a
pass/fail flag and a human-readable message determined by the success
tally and the total item count — any two runs (past setup) with the same
tally and total return identical values, so no per-item failure list is
returned (failure identities are only logged and sent to callbacks). -/
theorem c3_result_is_flag_and_tally (items1 items2 : List ItemRun)
    (hcount : (items1.filter fun r => fullSuccess r.outcome).length
        = (items2.filter fun r => fullSuccess r.outcome).length)
    (hlen : items1.length = items2.length) :
    process_data_items true true true true items1
      = process_data_items true true true true items2 := by
  unfold process_data_items
  rw [processItems_success_count, processItems_success_count, hcount, hlen]

/-- C3 witness: the amended theorem applied at two concrete runs with equal
tallies. -/
theorem c3_witness :
    process_data_items true true true true [⟨⟨"x", none⟩, .exn⟩]
      = process_data_items true true true true
          [⟨⟨"y", some "EPSG:3857"⟩, .normal false true⟩] :=
  c3_result_is_flag_and_tally _ _ (by decide) (by decide)

/-- C4: the Name Normalizer is idempotent — normalizing an
already-normalized name returns it unchanged. -/
theorem c4_normalize_idempotent (s : String) :
    normalizeName (normalizeName s) = normalizeName s := by
  unfold normalizeName
  exact congrArg String.mk (normalize_name_idem s.data)

/-- C5 counterexample: the input `unnamed` consists entirely of valid
characters, yet its normalization is the literal `unnamed` — so the output
equals `unnamed` not *only* when the input contains no valid character. -/
theorem c5_counterexample :
    normalizeName "unnamed" = "unnamed"
    ∧ hasValidChar "unnamed".data = true := by
  constructor
  · rfl
  · decide

/-- C5 (amended): the normalizer is total over all strings, its output
always matches `^[a-z0-9_]+$`, and whenever the input contains no valid
character the output is `unnamed`; the converse fails (e.g. on the input
`unnamed` itself), so `unnamed` outputs do not certify an invalid input. -/
theorem c5_total_pattern_unnamed (s : String) :
    matchesIdentPattern (normalizeName s).data = true
    ∧ (hasValidChar s.data = false → normalizeName s = "unnamed") := by
  constructor
  · exact normalize_name_matches s.data
  · intro h
    unfold normalizeName
    rw [normalize_name_of_no_valid h]
    rfl

/-- C5 witness: the amended theorem applied at the concrete input `@#!`,
which has no valid character. -/
theorem c5_witness :
    matchesIdentPattern (normalizeName "@#!").data = true
    ∧ normalizeName "@#!" = "unnamed" :=
  ⟨(c5_total_pattern_unnamed "@#!").1,
    (c5_total_pattern_unnamed "@#!").2 (by decide)⟩

/-- C6 counterexample: scanning a file with stem `1abc` yields the target
name `1abc`, whose first character is the digit `1` — refuting the clause
that a target name never starts with a digit. -/
theorem c6_counterexample :
    scan_target_name "1abc".data = "1abc".data
    ∧ (scan_target_name "1abc".data).head? = some '1'
    ∧ (48 ≤ '1'.toNat ∧ '1'.toNat ≤ 57) := by
  refine ⟨by rfl, by rfl, by decide⟩

/-- C6 (amended): every target name produced during folder scanning is
non-empty, consists only of characters in `[a-z0-9_]` (hence is lowercase),
and never consists solely of underscores; it may however begin with a
digit. -/
theorem c6_target_name_invariant (stem : List Char) :
    (scan_target_name stem).isEmpty = false
    ∧ (scan_target_name stem).all isValidChar = true
    ∧ (scan_target_name stem).all (fun c => c == '_') = false := by
  refine ⟨?_, ?_, ?_⟩
  · rw [List.isEmpty_eq_false_iff_exists_mem]
    cases hn : scan_target_name stem with
    | nil => exact absurd hn (normalize_name_ne_nil stem)
    | cons c rest => exact ⟨c, List.mem_cons_self c rest⟩
  · rw [List.all_eq_true]
    exact normalize_name_all_valid stem
  · cases hn : scan_target_name stem with
    | nil => exact absurd hn (normalize_name_ne_nil stem)
    | cons c rest =>
      have hh := normalize_name_headNotU stem
      unfold scan_target_name at hn
      rw [hn] at hh
      rw [headNotU, Bool.not_eq_true'] at hh
      rw [List.all_cons, hh, Bool.false_and]

/-- C7: workspace creation succeeds exactly for the HTTP statuses 200, 201
and 409 (conflict treated as "already exists", making re-creation succeed),
while layer publication succeeds exactly for 200 and 201 — in particular a
409 on re-publishing an existing layer is a failure. -/
theorem c7_status_code_asymmetry (code : Nat) :
    (create_workspace_result (.status code)).1
        = decide (code = 200 ∨ code = 201 ∨ code = 409)
    ∧ (publish_layer_result (.status code)).1
        = decide (code = 200 ∨ code = 201)
    ∧ (create_workspace_result (.status 409)).1 = true
    ∧ (publish_layer_result (.status 409)).1 = false := by
  refine ⟨?_, ?_, by rfl, by rfl⟩
  · simp only [create_workspace_result]
    by_cases h1 : code ∈ [200, 201]
    · rw [if_pos h1]
      simp only [List.mem_cons, List.not_mem_nil, or_false] at h1
      simp only [decide_eq_true_eq] at *
      simp [h1]
      tauto
    · rw [if_neg h1]
      simp only [List.mem_cons, List.not_mem_nil, or_false] at h1
      push_neg at h1
      by_cases h2 : code = 409
      · simp [h2]
      · simp [h1.1, h1.2, h2]
  · simp only [publish_layer_result]
    by_cases h1 : code ∈ [200, 201]
    · rw [if_pos h1]
      simp only [List.mem_cons, List.not_mem_nil, or_false] at h1
      simp [h1]
    · rw [if_neg h1]
      simp only [List.mem_cons, List.not_mem_nil, or_false] at h1
      push_neg at h1
      simp [h1.1, h1.2]

/-- C8 counterexample: for the invalid new name `1abc` the Database
Gateway's `rename_table` still submits its `ALTER TABLE` statement — the
statement list is non-empty although the name violates the identifier
rule, refuting the claim that the gateway rejects such names before any
SQL executes. -/
theorem c8_counterexample :
    pg_rename_table_statements "public" "t1" "1abc"
        = ["ALTER TABLE \"public\".\"t1\" RENAME TO \"1abc\""]
    ∧ validSqlIdent "1abc" = false := by
  constructor
  · rfl
  · decide

/-- C8 (amended): the identifier rule `^[a-zA-Z][a-zA-Z0-9_]*$` is enforced
by the GUI rename flow, not by the Database Gateway: when the candidate
name violates the rule, `ImprovedMainWindow.rename_table` returns silently
or shows a warning, and in neither case reaches the gateway, so no SQL
executes; the gateway method itself performs no validation. -/
theorem c8_gui_rename_validation (current newName schema : String)
    (h : validSqlIdent newName = false) :
    main_window_rename current newName schema = RenameFlow.noop
    ∨ main_window_rename current newName schema = RenameFlow.rejected := by
  unfold main_window_rename
  by_cases h1 : newName = "" ∨ newName = current
  · rw [if_pos h1]
    exact Or.inl rfl
  · rw [if_neg h1, if_pos h]
    exact Or.inr rfl

/-- C8 witness: the amended theorem applied at the rename request
`t1 → 1abc`. -/
theorem c8_witness :
    main_window_rename "t1" "1abc" "public" = RenameFlow.noop
    ∨ main_window_rename "t1" "1abc" "public" = RenameFlow.rejected :=
  c8_gui_rename_validation "t1" "1abc" "public" (by decide)

/-- C9 counterexample: for the source column `a--b` the import stage
produces the destination column `a__b`, while the Name Normalizer yields
`a_b` — the two differ, refuting the claim that every non-geometry column
is sanitized by the same rules as the Name Normalizer. -/
theorem c9_counterexample :
    column_mapping ["a--b".data] = [("a--b".data, "a__b".data)]
    ∧ normalize_name "a--b".data = "a_b".data
    ∧ "a__b".data ≠ "a_b".data := by
  refine ⟨by rfl, by rfl, by decide⟩

/-- C9 (amended): the import stage applies only the first stage of the
Name Normalizer — lower-casing and substituting `_` for characters outside
the identifier class; the normalizer's remaining stages (collapsing `_`
runs, stripping edge underscores, the `unnamed` fallback) are not applied,
so the normalizer's output is exactly the import-sanitized column after
additionally applying those stages. -/
theorem c9_clean_col_vs_normalizer (col : List Char) :
    normalize_name col
      = (if stripU (collapse (clean_col col)) = [] then unnamedChars
          else stripU (collapse (clean_col col))) := by
  rw [clean_col_eq_subInvalid]
  rfl

/-- C10: for every item whose coordinate reference text does not start with
`EPSG:`, the import stage substitutes the target CRS `EPSG:4326` while the
publish stage passes the item's original coordinate reference unchanged as
the layer SRS, so whenever that text is not `EPSG:4326` itself the imported
table's CRS and the published layer's declared SRS differ. -/
theorem c10_crs_divergence (it : DataItem)
    (h : strStartsWith it.srsText "EPSG:" = false) :
    importTargetCrs it = "EPSG:4326"
    ∧ publishSrs it = it.srsText
    ∧ (it.srsText ≠ "EPSG:4326" → importTargetCrs it ≠ publishSrs it) := by
  have h1 : importTargetCrs it = "EPSG:4326" := by
    unfold importTargetCrs
    rw [h]
    rfl
  refine ⟨h1, rfl, fun hne => ?_⟩
  rw [h1]
  unfold publishSrs
  exact fun he => hne he.symm

/-- C10 witness: the theorem applied at a concrete item whose detected CRS
is in `ESRI:` form. -/
theorem c10_witness :
    importTargetCrs ⟨"roads", some "ESRI:102100"⟩ = "EPSG:4326"
    ∧ publishSrs ⟨"roads", some "ESRI:102100"⟩ = "ESRI:102100"
    ∧ importTargetCrs ⟨"roads", some "ESRI:102100"⟩
        ≠ publishSrs ⟨"roads", some "ESRI:102100"⟩ := by
  obtain ⟨h1, h2, h3⟩ := c10_crs_divergence ⟨"roads", some "ESRI:102100"⟩ (by decide)
  exact ⟨h1, h2, h3 (by decide)⟩

end GpmVerify
